import Mathlib

/-!
Verification development for the kalshibot repository: a shallow embedding,
in Lean 4, of the signed-request client in `kalshi_client.py` and of the
command-layer helpers in `main.py`, together with theorems settling the
behavioural claims about request dispatch, pagination, request signing,
URL construction, order validation and money rendering.

Strings are modelled as `List Char` where character-level reasoning is
needed (signing, URL construction) and as `String` elsewhere.  Machine
floats appear only in money formatting, where the Python float division
`cents / 100` followed by `:,.2f` formatting is exact for the integer
inputs considered; that formatting is modelled by exact integer
arithmetic.
-/

namespace Kalshibot

/-! ### Core request helper (`KalshiClient.request`, kalshi_client.py lines 67-119)

One invocation of `request` performs exactly one transport call
(`requests.get` / `requests.request` / `requests.delete`).  The outcome of
that single call is either a raised `requests.RequestException` (no
response received) or a response carrying a status code and a body that
may or may not parse as JSON.

Control flow of the source, faithfully:
* on `RequestException` (line 105): print and `return None` (line 107).
  The status-code check at lines 109-113 sits inside this `except` block
  *after* the `return`, so it is unreachable dead code; the status code of
  a received response is therefore never inspected.
* on a received response: `return resp.json()` (line 116), or `None` when
  the body is not valid JSON (lines 117-119).

There is no loop, no retry counter and no call to any sleep function
anywhere in the function.
-/

/-- Outcome of the single transport call made by `request`.  `failure`
models a raised `requests.RequestException`; `response status body`
models a received HTTP response whose JSON-decoded body is `body`
(`none` when the body is not valid JSON). -/
inductive TransportResult (β : Type) where
  | failure : TransportResult β
  | response (status : Nat) (body : Option β) : TransportResult β
deriving DecidableEq

/-- What `KalshiClient.request` returns given the outcome of its single
transport call: `None` on a transport exception, otherwise the parsed
JSON body (`None` when parsing fails).  The dead status-code check at
lines 109-113 contributes nothing. -/
def requestOnce {β : Type} (t : TransportResult β) : Option β :=
  match t with
  | .failure => none
  | .response _ body => body

/-- Observable trace of one logical `request` call: the returned value,
the number of transport calls issued, and the list of back-off sleeps
performed (in seconds, in order). -/
structure RequestTrace (β : Type) where
  result : Option β
  httpCalls : Nat
  sleeps : List ℚ
deriving DecidableEq

/-- One logical `request` call run against a server modelled as a map
from attempt index to transport outcome.  The source performs exactly one
transport call (consuming `server 0`), never sleeps, and returns what
`requestOnce` computes from that single outcome. -/
def requestRun {β : Type} (server : Nat → TransportResult β) : RequestTrace β :=
  { result := requestOnce (server 0), httpCalls := 1, sleeps := [] }

/-! ### Theorems for claims C1, C2, C3 -/

/-- C1 (counterexample): with every attempt ending in a transport failure,
the total elapsed sleep of `request` is `0`, not
`base_delay * (2^0 + 2^1 + 2^2 + 2^3)` with `base_delay = 0.25`; only one
HTTP call is made and the result is the bare failure value `None`. -/
theorem request_allTransportFailure_no_backoff :
    (requestRun (fun _ => TransportResult.failure (β := Nat))).sleeps.sum = 0 ∧
    (requestRun (fun _ => TransportResult.failure (β := Nat))).sleeps.sum ≠
      (1 / 4 : ℚ) * (2 ^ 0 + 2 ^ 1 + 2 ^ 2 + 2 ^ 3) ∧
    (requestRun (fun _ => TransportResult.failure (β := Nat))).httpCalls = 1 ∧
    (requestRun (fun _ => TransportResult.failure (β := Nat))).result = none := by
  refine ⟨rfl, ?_, rfl, rfl⟩
  norm_num [requestRun, requestOnce]

/-- C1 (amended): when the (first and only) attempt of a logical call ends
in a transport failure, `request` makes exactly one HTTP call, performs no
sleep at all, and returns `None` — there is no retry loop and no
`TransportExhausted` error value in the code. -/
theorem request_transport_failure_single_attempt {β : Type}
    (server : Nat → TransportResult β) (h : server 0 = TransportResult.failure) :
    requestRun server = { result := none, httpCalls := 1, sleeps := [] } := by
  simp [requestRun, requestOnce, h]

/-- C1 (witness): the amended theorem applied to the concrete all-failing
server. -/
theorem request_transport_failure_single_attempt_witness :
    requestRun (fun _ => TransportResult.failure (β := Nat)) =
      { result := none, httpCalls := 1, sleeps := [] } :=
  request_transport_failure_single_attempt (fun _ => TransportResult.failure) rfl

/-- C2 (code evaluation at the failing input): for a response with status
404 — outside [200,300) and not in {401, 429, 500, 502, 503, 504} — whose
body parses as JSON, `request` returns the parsed body itself (the
status-code check is unreachable dead code inside the `except` block), not
a failure value; it does make only one HTTP call. -/
theorem request_404_returns_parsed_body :
    requestOnce (TransportResult.response 404 (some "error-body")) = some "error-body" ∧
    (requestRun (fun _ => TransportResult.response 404 (some "error-body"))).httpCalls = 1 := by
  exact ⟨rfl, rfl⟩

/-- C3 (code evaluation at the failing input): for a response with status
401 whose body parses as JSON, `request` makes exactly one HTTP call and
returns the parsed body — indistinguishable from success — rather than any
`AuthRejected` failure value. -/
theorem request_401_returns_parsed_body :
    requestRun (fun _ => TransportResult.response 401 (some "unauthorized")) =
      { result := some "unauthorized", httpCalls := 1, sleeps := [] } := by
  rfl

/-! ### Pagination (`KalshiClient.kalpaginate`, kalshi_client.py lines 123-154)

`kalpaginate` loops: it builds a query containing `limit`, plus `cursor`
when the current cursor is truthy, issues `request("GET", path)`, breaks
when the response is falsy (`if not resp`), yields each element of
`resp.get(key, [])` in order, reads `resp.get("cursor")`, and breaks when
that cursor is falsy (absent or the empty string); otherwise it loops with
the new cursor.

A JSON-object response is modelled as a `Page`: the value under the items
key (`none` when the key is absent), the value under `"cursor"` (`none`
when absent), and a flag recording whether the dictionary has any further
keys (Python's `not resp` is true exactly for an empty dictionary).  The
result of `request` is `Option (Page α)`: `none` models a failed call.
The server is modelled as the list of successive responses, one per GET
issued; the model records, per GET, the cursor parameter it was issued
with (`none` = the `cursor` key was omitted from the query). -/

/-- One JSON page as consumed by `kalpaginate`: `items` is the value under
the items key (`none` if absent), `cursor` the value under `"cursor"`
(`none` if absent), `extra` whether the dictionary holds any other keys. -/
structure Page (α : Type) where
  items : Option (List α)
  cursor : Option String
  extra : Bool
deriving DecidableEq

/-- Python truthiness of the page dictionary (`not resp` in the source):
a dict is truthy iff it is non-empty. -/
def Page.truthy {α : Type} (p : Page α) : Bool :=
  p.items.isSome || p.cursor.isSome || p.extra

/-- Python truthiness of the cursor value read by `if not cursor` and
`if cursor` in the source: a string cursor is truthy iff present and
non-empty. -/
def cursorTruthy : Option String → Bool
  | none => false
  | some c => !(c = "")

/-- Observable trace of one `kalpaginate` run: the items yielded, in
order, and the cursor parameter attached to each GET issued, in order
(`none` = no `cursor` query parameter). -/
structure PagRun (α : Type) where
  yields : List α
  requests : List (Option String)
deriving DecidableEq

/-- The `kalpaginate` loop body, parametrised by the current cursor and
the list of responses the server will return to the successive GET calls.
The empty-responses case is never reached in the scenarios considered
(every theorem below terminates the loop within the list). -/
def kalpaginateGo {α : Type} (cursor : Option String) :
    List (Option (Page α)) → PagRun α
  | [] => { yields := [], requests := [] }
  | r :: rest =>
    match r with
    | none => { yields := [], requests := [cursor] }
    | some pg =>
      if pg.truthy then
        let its := pg.items.getD []
        if cursorTruthy pg.cursor then
          let next := kalpaginateGo pg.cursor rest
          { yields := its ++ next.yields, requests := cursor :: next.requests }
        else { yields := its, requests := [cursor] }
      else { yields := [], requests := [cursor] }

/-- `KalshiClient.kalpaginate` run against a list of server responses:
the loop starts with `cursor = None` (so the first GET carries no cursor
parameter). -/
def kalpaginate {α : Type} (responses : List (Option (Page α))) : PagRun α :=
  kalpaginateGo none responses

/-- A truthy cursor makes the whole page dictionary truthy. -/
theorem Page.truthy_of_cursorTruthy {α : Type} (pg : Page α)
    (h : cursorTruthy pg.cursor = true) : pg.truthy = true := by
  cases hc : pg.cursor with
  | none => rw [hc] at h; simp [cursorTruthy] at h
  | some c => simp [Page.truthy, hc]

/-- Generalisation of the successful-pagination theorem over the initial
cursor argument: feeding `kalpaginateGo` pages `mids ++ [lastPg]` where
every page in `mids` carries a truthy cursor and `lastPg` does not, the
run yields the concatenation of the pages' item lists (absent items keys
contributing nothing) and issues one GET per page, the first with the
initial cursor and each later one with the cursor of the page before it. -/
theorem kalpaginateGo_pages {α : Type} (c0 : Option String)
    (mids : List (Page α)) (lastPg : Page α)
    (hmid : ∀ pg ∈ mids, cursorTruthy pg.cursor = true)
    (hlast : cursorTruthy lastPg.cursor = false) :
    kalpaginateGo c0 ((mids ++ [lastPg]).map some) =
      { yields := ((mids ++ [lastPg]).map fun pg => pg.items.getD []).flatten,
        requests := c0 :: mids.map Page.cursor } := by
  induction mids generalizing c0 with
  | nil =>
      by_cases ht : lastPg.truthy
      · simp [kalpaginateGo, ht, hlast]
      · have hi : lastPg.items = none := by
          cases h : lastPg.items with
          | none => rfl
          | some l => simp [Page.truthy, h] at ht
        simp [kalpaginateGo, ht, hi]
  | cons pg rest ih =>
      have hpg : cursorTruthy pg.cursor = true := hmid pg (by simp)
      have ht : pg.truthy = true := Page.truthy_of_cursorTruthy pg hpg
      have hrest : ∀ q ∈ rest, cursorTruthy q.cursor = true := by
        intro q hq; exact hmid q (by simp [hq])
      simp only [List.cons_append, List.map_cons, kalpaginateGo, ht, hpg,
        if_true, List.append_eq]
      rw [ih pg.cursor hrest]
      simp [List.flatten]

/-- C4: for a sequence of successful pages in which every page but the
last carries a truthy (present, non-empty) cursor and the last does not,
`kalpaginate` yields exactly the concatenation of the pages' item lists in
server order (a missing items key contributing the empty list), issues
exactly one GET per page — the first without a cursor parameter and each
subsequent one with the cursor of the immediately preceding page, so no
cursor is ever re-requested — and terminates at the page whose cursor is
absent or empty. -/
theorem kalpaginate_pages {α : Type} (mids : List (Page α)) (lastPg : Page α)
    (hmid : ∀ pg ∈ mids, cursorTruthy pg.cursor = true)
    (hlast : cursorTruthy lastPg.cursor = false) :
    kalpaginate ((mids ++ [lastPg]).map some) =
      { yields := ((mids ++ [lastPg]).map fun pg => pg.items.getD []).flatten,
        requests := none :: mids.map Page.cursor } :=
  kalpaginateGo_pages none mids lastPg hmid hlast

/-- C4 (witness): the two-page scenario from the spec —
`[{items:[1,2], cursor:"x"}, {items:[3], cursor:absent}]` yields `[1,2,3]`
with exactly two GET calls, the second carrying cursor `"x"`. -/
theorem kalpaginate_pages_witness :
    kalpaginate ((([⟨some [1, 2], some "x", false⟩] : List (Page Nat)) ++
        ([⟨some [3], none, false⟩] : List (Page Nat))).map some) =
      { yields := [1, 2, 3], requests := [none, some "x"] } := by
  have h := kalpaginate_pages ([⟨some [1, 2], some "x", false⟩] : List (Page Nat))
    (⟨some [3], none, false⟩ : Page Nat) (by decide) (by decide)
  simpa using h

/-- Generalisation of the failure-termination theorem over the initial
cursor: if every response before the failing one is a page with a truthy
cursor and then a GET fails (`request` returns `None`), the run yields
exactly the items of the successful prefix, issues one GET per successful
page plus the failing GET, and never consults the responses after the
failure. -/
theorem kalpaginateGo_failure {α : Type} (c0 : Option String)
    (mids : List (Page α)) (rest : List (Option (Page α)))
    (hmid : ∀ pg ∈ mids, cursorTruthy pg.cursor = true) :
    kalpaginateGo c0 (mids.map some ++ none :: rest) =
      { yields := (mids.map fun pg => pg.items.getD []).flatten,
        requests := c0 :: mids.map Page.cursor } := by
  induction mids generalizing c0 with
  | nil => simp [kalpaginateGo]
  | cons pg tl ih =>
      have hpg : cursorTruthy pg.cursor = true := hmid pg (by simp)
      have ht : pg.truthy = true := Page.truthy_of_cursorTruthy pg hpg
      have htl : ∀ q ∈ tl, cursorTruthy q.cursor = true := by
        intro q hq; exact hmid q (by simp [hq])
      simp only [List.map_cons, List.cons_append, kalpaginateGo, ht, hpg,
        if_true, List.append_eq]
      rw [ih pg.cursor htl]
      simp [List.flatten]

/-- C8: when a page fetch fails mid-pagination (after a prefix of
successful pages each carrying a truthy cursor), the sequence terminates
immediately: exactly the items of the successful prefix are yielded, the
failing GET is the last request issued (no page after the failure is
requested — the result does not depend on `rest`), and the run result
carries no error value at all, only the yielded prefix. -/
theorem kalpaginate_failure {α : Type}
    (mids : List (Page α)) (rest : List (Option (Page α)))
    (hmid : ∀ pg ∈ mids, cursorTruthy pg.cursor = true) :
    kalpaginate (mids.map some ++ none :: rest) =
      { yields := (mids.map fun pg => pg.items.getD []).flatten,
        requests := none :: mids.map Page.cursor } :=
  kalpaginateGo_failure none mids rest hmid

/-- C8 (witness): one successful page `{items:[1,2], cursor:"x"}`, then a
failing fetch; the run yields `[1,2]`, makes two GET calls, and ignores a
further available page behind the failure. -/
theorem kalpaginate_failure_witness :
    kalpaginate ([(⟨some [1, 2], some "x", false⟩ : Page Nat)].map some ++
        none :: [some ⟨some [9], none, false⟩]) =
      { yields := [1, 2], requests := [none, some "x"] } := by
  have h := kalpaginate_failure [(⟨some [1, 2], some "x", false⟩ : Page Nat)]
    [some ⟨some [9], none, false⟩] (by decide)
  simpa using h

/-! ### The `markets --all` command (`cmd_markets`, main.py lines 286-300)

With `--all`, `cmd_markets` evaluates `client.paginate(...)`.  Attribute
lookup on the client happens before any argument is evaluated or any HTTP
request is issued; `KalshiClient` defines no attribute `paginate` (its
pagination helper is named `kalpaginate`), so the lookup raises
`AttributeError` unconditionally. -/

/-- The attribute names defined on `KalshiClient`
(kalshi_client.py lines 18-268), in source order. -/
def kalshiClientMethods : List String :=
  ["__init__", "_load_private_key", "_create_signature", "_build_query",
   "_build_url", "request", "kalpaginate", "get_balance", "list_markets",
   "place_order", "get_positions", "get_orders", "cancel_order",
   "cancel_all_for_ticker"]

/-- Result of running the `--all` branch of `cmd_markets`: either the list
of market items collected from `client.paginate(...)`, or an
`AttributeError` naming the missing attribute (raised before any request
is issued). -/
inductive CmdResult (α : Type) where
  | ok (items : List α)
  | attributeError (attr : String)
deriving DecidableEq

/-- The `--all` branch of `cmd_markets`: look up the attribute named
`paginate` on the client; on success run the paginator over the server's
responses and collect the yielded items, otherwise raise `AttributeError`
without issuing any request. -/
def cmdMarketsAll {α : Type} (responses : List (Option (Page α))) : CmdResult α :=
  if kalshiClientMethods.contains "paginate" then
    CmdResult.ok (kalpaginate responses).yields
  else CmdResult.attributeError "paginate"

/-- C5: the client defines `kalpaginate` but not `paginate`, so every
invocation of `markets --all` fails with `AttributeError` on `paginate`
before any page is fetched, whatever the server would have returned. -/
theorem cmdMarketsAll_attributeError {α : Type}
    (responses : List (Option (Page α))) :
    kalshiClientMethods.contains "paginate" = false ∧
    kalshiClientMethods.contains "kalpaginate" = true ∧
    cmdMarketsAll responses = CmdResult.attributeError "paginate" := by
  have h : kalshiClientMethods.contains "paginate" = false := by decide
  refine ⟨h, by decide, ?_⟩
  simp only [cmdMarketsAll, h, Bool.false_eq_true, if_false]

/-! ### Order placement validation (`_place_order_from_args`, main.py lines 464-498)

The handler reads `args.yes` / `args.no` (optional integer cents) and
`args.qty`, then runs a chain of checks, each printing an error and
returning — before `client.place_order` is ever called — when it fires:
both prices absent; both present; `yes` outside 1..99; `no` outside
1..99; non-positive quantity.  Only if all checks pass is
`client.place_order` invoked (the one network call of the handler). -/

/-- Order body built by `KalshiClient.place_order`
(kalshi_client.py lines 171-195): the optional price fields are present
exactly when the corresponding argument is not `None`. -/
structure OrderBody where
  ticker : String
  action : String
  type : String
  side : String
  count : Int
  yes_price : Option Int
  no_price : Option Int
deriving DecidableEq

/-- `KalshiClient.place_order`: assembles the POST body for
`/portfolio/orders` from its arguments. -/
def place_order (ticker side action : String) (quantity : Int)
    (yes_price no_price : Option Int) (order_type : String) : OrderBody :=
  { ticker := ticker, action := action, type := order_type, side := side,
    count := quantity, yes_price := yes_price, no_price := no_price }

/-- Outcome of `_place_order_from_args`: either a validation rejection
printed to the console (no network call is made), or the order body handed
to `client.place_order` (the network call). -/
inductive OrderOutcome where
  | rejected (msg : String)
  | sent (body : OrderBody)
deriving DecidableEq

/-- Whether the handler stopped at a validation check (no network call). -/
def OrderOutcome.isRejected : OrderOutcome → Bool
  | rejected _ => true
  | sent _ => false

/-- The source check `price is not None and not (1 <= price <= 99)`. -/
def outOfRange1to99 : Option Int → Bool
  | none => false
  | some v => decide (¬ (1 ≤ v ∧ v ≤ 99))

/-- `_place_order_from_args` (main.py lines 464-498): the validation chain
followed, when all checks pass, by the call to `client.place_order` with
`side` chosen from which price is present and `action` the buy/sell
argument. -/
def placeOrderFromArgs (ticker sideArg : String) (yes no : Option Int)
    (qty : Int) : OrderOutcome :=
  if yes.isNone && no.isNone then
    .rejected "You must provide either --yes or --no price."
  else if yes.isSome && no.isSome then
    .rejected "Provide only one of --yes or --no, not both."
  else if outOfRange1to99 yes then
    .rejected "--yes price must be between 1 and 99 (cents)."
  else if outOfRange1to99 no then
    .rejected "--no price must be between 1 and 99 (cents)."
  else if qty ≤ 0 then
    .rejected "--qty must be positive."
  else
    .sent (place_order ticker (if yes.isSome then "yes" else "no") sideArg
      qty yes no "limit")

/-- C9: a yes price outside 1..99 inclusive (in particular 0 or 100), or
the simultaneous presence of both a yes and a no price, is rejected by the
order-placement handler before any network call: the outcome is a
`rejected` message and never a `sent` order body. -/
theorem placeOrder_invalid_rejected (ticker sideArg : String)
    (yes no : Option Int) (qty : Int)
    (h : (∃ y, yes = some y ∧ (y < 1 ∨ 99 < y)) ∨
      (yes.isSome = true ∧ no.isSome = true)) :
    (placeOrderFromArgs ticker sideArg yes no qty).isRejected = true ∧
    ∀ body, placeOrderFromArgs ticker sideArg yes no qty ≠ .sent body := by
  have hrej : (placeOrderFromArgs ticker sideArg yes no qty).isRejected = true := by
    rcases h with ⟨y, hy, hrange⟩ | ⟨hys, hns⟩
    · subst hy
      cases no with
      | none =>
          have hoor : outOfRange1to99 (some y) = true := by
            simp [outOfRange1to99]; omega
          simp [placeOrderFromArgs, hoor, OrderOutcome.isRejected]
      | some n => simp [placeOrderFromArgs, OrderOutcome.isRejected]
    · rcases Option.isSome_iff_exists.mp hys with ⟨y, hy⟩
      rcases Option.isSome_iff_exists.mp hns with ⟨n, hn⟩
      subst hy; subst hn
      simp [placeOrderFromArgs, OrderOutcome.isRejected]
  refine ⟨hrej, fun body hcontra => ?_⟩
  rw [hcontra] at hrej
  simp [OrderOutcome.isRejected] at hrej

/-- C9 (witness): a buy order with yes price 0 is rejected before any
network call. -/
theorem placeOrder_invalid_rejected_witness :
    (placeOrderFromArgs "KXNBAGAME-X" "buy" (some 0) none 1).isRejected = true ∧
    ∀ body, placeOrderFromArgs "KXNBAGAME-X" "buy" (some 0) none 1 ≠ .sent body :=
  placeOrder_invalid_rejected "KXNBAGAME-X" "buy" (some 0) none 1
    (Or.inl ⟨0, rfl, Or.inl (by norm_num)⟩)

/-! ### Money rendering (`cents_to_dollars` and `render_balance`, main.py lines 20-21 and 133-141)

`cents_to_dollars` computes `f"${(cents or 0) / 100:,.2f}"`: divide the
integer cents by 100 and format with two decimal places and a comma
every three digits of the integer part.  For integer cents the float
division and rounding are exact, so the formatting is modelled by exact
integer arithmetic: integer part `cents / 100` with comma grouping, then
two digits of `cents % 100`.  `render_balance` formats
`bal.get('balance', 0)` as cash and `bal.get('portfolio_value', 0)` as
portfolio value. -/

/-- Insert a comma after every completed group of three characters,
walking a reversed digit list; `k` counts the digits already placed in
the current group. -/
def commasRevGo : List Char → Nat → List Char
  | [], _ => []
  | c :: rest, k =>
    if k == 2 && !rest.isEmpty then c :: ',' :: commasRevGo rest 0
    else c :: commasRevGo rest (k + 1)

/-- Comma-group a digit string (most significant digit first) in threes
from the right, as Python's `,` format specifier does. -/
def commasFromRight (s : List Char) : List Char :=
  (commasRevGo s.reverse 0).reverse

/-- `cents_to_dollars` (main.py lines 20-21) on non-negative integer
cents, for which the Python float division by 100 and `:,.2f` rounding
are exact. -/
def cents_to_dollars (cents : Nat) : String :=
  "$" ++ String.mk (commasFromRight (Nat.toDigits 10 (cents / 100))) ++
    "." ++ String.mk [Nat.digitChar (cents % 100 / 10), Nat.digitChar (cents % 100 % 10)]

/-- A balance response as consumed by `render_balance`: each field is
`none` when the key is absent. -/
structure BalanceResp where
  balance : Option Nat
  portfolio_value : Option Nat
  updated_ts : Option Nat
deriving DecidableEq

/-- The two money strings printed by `render_balance`
(main.py lines 133-141): cash from `balance` and portfolio value from
`portfolio_value`, both defaulting to 0 when absent (the timestamp line is
not modelled). -/
def render_balance (bal : BalanceResp) : String × String :=
  (cents_to_dollars (bal.balance.getD 0), cents_to_dollars (bal.portfolio_value.getD 0))

/-- C10: the balance response `{balance: 150000, portfolio_value: 25000,
updated_ts: 1700000000}` renders as cash `$1,500.00` and portfolio value
`$250.00`: division by 100, two decimal places, thousands separators. -/
theorem render_balance_scenario :
    render_balance ⟨some 150000, some 25000, some 1700000000⟩ =
      ("$1,500.00", "$250.00") ∧
    cents_to_dollars 150000 = "$1,500.00" ∧
    cents_to_dollars 25000 = "$250.00" := by
  refine ⟨?_, ?_, ?_⟩ <;> rfl

/-! ### Request signing (`KalshiClient._create_signature`, kalshi_client.py lines 33-48)

The signed byte string is the UTF-8 encoding of
`timestamp_ms + method + (API_BASE_PATH + path).split("?", 1)[0]`; the
method is uppercased by `request` (line 75) before signing.  UTF-8
encoding is injective, so the message is modelled at character level as a
`List Char`; `split("?", 1)[0]` is the part of the string before the
first `'?'`. -/

/-- `API_BASE_PATH` (kalshi_client.py line 15). -/
def API_BASE_PATH : List Char := "/trade-api/v2".toList

/-- `full_path.split("?", 1)[0]`: everything before the first `'?'`. -/
def stripQuery (s : List Char) : List Char := s.takeWhile (· != '?')

/-- The message signed by `_create_signature` (line 38), as a function of
the timestamp string, the method string it is handed, and the logical
path: `timestamp + method + stripQuery (API_BASE_PATH + path)`. -/
def createSignatureMessage (timestamp_ms method path : List Char) : List Char :=
  timestamp_ms ++ method ++ stripQuery (API_BASE_PATH ++ path)

/-- The message signed on behalf of `request`, which uppercases the
method (line 75) before calling `_create_signature` (line 78). -/
def requestSignatureMessage (timestamp_ms method path : List Char) : List Char :=
  createSignatureMessage timestamp_ms (method.map Char.toUpper) path

/-- C6: for every timestamp, method and path, the signed string is
`timestamp + METHOD + (API prefix + path) with the query stripped`; it
contains no `'?'` (given that timestamp and uppercased method do not), and
signing `GET /markets?status=open` produces exactly the byte string of
signing `GET /markets` at the same timestamp. -/
theorem signatureMessage_no_query (ts method path : List Char)
    (hts : '?' ∉ ts) (hm : '?' ∉ method.map Char.toUpper) :
    '?' ∉ requestSignatureMessage ts method path ∧
    requestSignatureMessage ts method ("/markets?status=open".toList) =
      requestSignatureMessage ts method ("/markets".toList) := by
  constructor
  · intro hmem
    simp only [requestSignatureMessage, createSignatureMessage, stripQuery,
      List.mem_append] at hmem
    rcases hmem with (h | h) | h
    · exact hts h
    · exact hm h
    · have := List.mem_takeWhile_imp h
      simp at this
  · have hq : stripQuery (API_BASE_PATH ++ "/markets?status=open".toList) =
        stripQuery (API_BASE_PATH ++ "/markets".toList) := by decide
    simp only [requestSignatureMessage, createSignatureMessage, hq]

/-- C6 (witness): the theorem applied at timestamp `"1700000000000"`,
method `"get"` (uppercased to `GET` by `request`) and an arbitrary path. -/
theorem signatureMessage_no_query_witness :
    '?' ∉ requestSignatureMessage "1700000000000".toList "get".toList
        "/markets?status=open".toList ∧
    requestSignatureMessage "1700000000000".toList "get".toList
        ("/markets?status=open".toList) =
      requestSignatureMessage "1700000000000".toList "get".toList
        ("/markets".toList) :=
  signatureMessage_no_query "1700000000000".toList "get".toList
    "/markets?status=open".toList (by decide) (by decide)

/-! ### URL construction (`KalshiClient._build_url`, kalshi_client.py lines 59-63)

`__init__` (line 22) stores `base_url.rstrip("/")`; `_build_url` appends
the path directly when the stored base already ends with
`API_BASE_PATH`, and interposes the prefix otherwise.  "Contains the
prefix exactly once" is made precise by counting the positions at which
`API_BASE_PATH` occurs as a contiguous substring. -/

/-- Python `str.rstrip("/")` as applied to the configured base URL. -/
def rstripSlash (s : List Char) : List Char :=
  (s.reverse.dropWhile (· == '/')).reverse

/-- `_build_url` on the stored base URL: `base + path` when the base
already ends with `API_BASE_PATH`, else `base + API_BASE_PATH + path`. -/
def buildUrl (base path : List Char) : List Char :=
  if API_BASE_PATH <:+ base then base ++ path
  else base ++ API_BASE_PATH ++ path

/-- Number of positions of `s` at which `p` occurs as a contiguous
substring (one test at the start of every suffix of `s`). -/
def countOccs (p : List Char) : List Char → Nat
  | [] => 0
  | s@(_ :: rest) => (if p <+: s then 1 else 0) + countOccs p rest

/-- Occurrence counting is superadditive under concatenation: every
occurrence inside `x` and every occurrence inside `y` survives, at
shifted positions, in `x ++ y`. -/
theorem countOccs_append_ge (p x y : List Char) :
    countOccs p x + countOccs p y ≤ countOccs p (x ++ y) := by
  induction x with
  | nil => simp [countOccs]
  | cons c x ih =>
      have h1 : countOccs p (c :: x) =
          (if p <+: c :: x then 1 else 0) + countOccs p x := rfl
      have h2 : countOccs p ((c :: x) ++ y) =
          (if p <+: (c :: x) ++ y then 1 else 0) + countOccs p (x ++ y) := rfl
      have hind : (if p <+: c :: x then 1 else 0) ≤
          (if p <+: (c :: x) ++ y then 1 else 0) := by
        by_cases h : p <+: c :: x
        · rw [if_pos h, if_pos (h.trans (List.prefix_append (c :: x) y))]
        · rw [if_neg h]; omega
      rw [h1, h2]
      omega

/-- A block match of `p` anywhere in `b` makes the count positive. -/
theorem countOccs_pos_of_match (p : List Char) (hp : p ≠ []) :
    ∀ (b : List Char) (i : Nat), p <+: b.drop i → 0 < countOccs p b := by
  intro b
  induction b with
  | nil =>
      intro i h
      rw [List.drop_nil] at h
      exact absurd (List.prefix_nil.mp h) hp
  | cons c b ih =>
      intro i h
      have hc : countOccs p (c :: b) =
          (if p <+: c :: b then 1 else 0) + countOccs p b := rfl
      cases i with
      | zero =>
          rw [List.drop_zero] at h
          rw [hc, if_pos h]
          omega
      | succ j =>
          have hd : (c :: b).drop (j + 1) = b.drop j := rfl
          rw [hd] at h
          have hpos := ih j h
          rw [hc]
          omega

/-- A block `l` lying at the front of `x ++ y` and at least as long as
`x` decomposes as `x` followed by a block at the front of `y`. -/
theorem prefix_split_at_append {l x y : List Char} (h : l <+: x ++ y)
    (hlen : x.length ≤ l.length) :
    l.take x.length = x ∧ l.drop x.length <+: y := by
  obtain ⟨r, hr⟩ := h
  constructor
  · have ht := congrArg (List.take x.length) hr
    rwa [List.take_append_of_le_length hlen, List.take_left] at ht
  · refine ⟨r, ?_⟩
    have hd := congrArg (List.drop x.length) hr
    rwa [List.drop_append_of_le_length hlen, List.drop_left] at hd

/-- A block `l` lying at the front of `x ++ y` and no longer than `x`
lies at the front of `x`. -/
theorem prefix_of_append_left {l x y : List Char} (h : l <+: x ++ y)
    (hlen : l.length ≤ x.length) : l <+: x := by
  have hl : l = (x ++ y).take l.length := List.prefix_iff_eq_take.mp h
  rw [List.take_append_of_le_length hlen] at hl
  have htp : x.take l.length <+: x :=
    ⟨x.drop l.length, List.take_append_drop _ _⟩
  rw [hl]
  exact htp

/-- `API_BASE_PATH` is aperiodic: none of its proper non-empty tails lies
at its front.  This is the combinatorial fact that rules out occurrences
of the prefix straddling a concatenation boundary. -/
theorem apiPath_aperiodic :
    ∀ k, k < API_BASE_PATH.length → 1 ≤ k →
      ¬ (API_BASE_PATH.drop k <+: API_BASE_PATH) := by
  decide

/-- If `b` holds no occurrence of `API_BASE_PATH`, then no occurrence of
`API_BASE_PATH` in `b ++ (API_BASE_PATH ++ t)` starts inside `b`. -/
theorem no_match_into_api (b t : List Char)
    (hb : countOccs API_BASE_PATH b = 0) :
    ∀ i, i < b.length →
      ¬ (API_BASE_PATH <+: b.drop i ++ (API_BASE_PATH ++ t)) := by
  intro i hi hmatch
  by_cases hk : API_BASE_PATH.length ≤ (b.drop i).length
  · have hpre : API_BASE_PATH <+: b.drop i := prefix_of_append_left hmatch hk
    have hpos := countOccs_pos_of_match API_BASE_PATH (by decide) b i hpre
    omega
  · push_neg at hk
    have hlen1 : 1 ≤ (b.drop i).length := by
      rw [List.length_drop]; omega
    obtain ⟨htake, hdrop⟩ := prefix_split_at_append hmatch (le_of_lt hk)
    have hsmall : (API_BASE_PATH.drop (b.drop i).length).length ≤
        API_BASE_PATH.length := by
      rw [List.length_drop]; omega
    have hpp : API_BASE_PATH.drop (b.drop i).length <+: API_BASE_PATH :=
      prefix_of_append_left hdrop hsmall
    exact apiPath_aperiodic (b.drop i).length hk hlen1 hpp

/-- Prepending occurrence-free material does not change the occurrence
count in front of `API_BASE_PATH ++ t`. -/
theorem countOccs_cancel_left (t : List Char) :
    ∀ b, countOccs API_BASE_PATH b = 0 →
      countOccs API_BASE_PATH (b ++ (API_BASE_PATH ++ t)) =
        countOccs API_BASE_PATH (API_BASE_PATH ++ t) := by
  intro b
  induction b with
  | nil => intro _; rw [List.nil_append]
  | cons c b ih =>
      intro hb
      have hsplit : countOccs API_BASE_PATH (c :: b) =
          (if API_BASE_PATH <+: c :: b then 1 else 0) +
            countOccs API_BASE_PATH b := rfl
      have hb0 : countOccs API_BASE_PATH b = 0 := by
        rw [hsplit] at hb
        omega
      have hni : ¬ (API_BASE_PATH <+: (c :: b) ++ (API_BASE_PATH ++ t)) := by
        have h := no_match_into_api (c :: b) t hb 0 (by simp)
        rwa [List.drop_zero] at h
      have hg : countOccs API_BASE_PATH ((c :: b) ++ (API_BASE_PATH ++ t)) =
          (if API_BASE_PATH <+: (c :: b) ++ (API_BASE_PATH ++ t) then 1 else 0) +
            countOccs API_BASE_PATH (b ++ (API_BASE_PATH ++ t)) := rfl
      rw [hg, if_neg hni, ih hb0]
      omega

/-- A proper tail of `API_BASE_PATH` followed by occurrence-free material
holds no occurrence of `API_BASE_PATH`. -/
theorem countOccs_proper_tail :
    ∀ q t : List Char, q <:+ API_BASE_PATH → q.length < API_BASE_PATH.length →
      countOccs API_BASE_PATH t = 0 → countOccs API_BASE_PATH (q ++ t) = 0 := by
  intro q
  induction q with
  | nil => intro t _ _ ht; rwa [List.nil_append]
  | cons c q ih =>
      intro t hq hlen ht
      have hq' : q <:+ API_BASE_PATH := (List.suffix_cons c q).trans hq
      have hlen' : q.length < API_BASE_PATH.length := by
        rw [List.length_cons] at hlen; omega
      have hni : ¬ (API_BASE_PATH <+: (c :: q) ++ t) := by
        intro hmatch
        obtain ⟨htake, _⟩ := prefix_split_at_append hmatch (le_of_lt hlen)
        obtain ⟨pre, hpre⟩ := hq
        have hplen : pre.length + (c :: q).length = API_BASE_PATH.length := by
          have hl := congrArg List.length hpre
          simpa using hl
        have hdropPre : API_BASE_PATH.drop pre.length = c :: q := by
          rw [← hpre, List.drop_left]
        have hpp : API_BASE_PATH.drop pre.length <+: API_BASE_PATH := by
          rw [hdropPre, ← htake]
          exact ⟨API_BASE_PATH.drop (c :: q).length, List.take_append_drop _ _⟩
        have hone : 1 ≤ (c :: q).length := by simp
        exact apiPath_aperiodic pre.length (by omega) (by omega) hpp
      have hg : countOccs API_BASE_PATH ((c :: q) ++ t) =
          (if API_BASE_PATH <+: (c :: q) ++ t then 1 else 0) +
            countOccs API_BASE_PATH (q ++ t) := rfl
      rw [hg, if_neg hni, ih t hq' hlen' ht]

/-- `API_BASE_PATH ++ t` holds exactly one occurrence of
`API_BASE_PATH` when `t` holds none: the one at the front. -/
theorem countOccs_self_append (t : List Char)
    (ht : countOccs API_BASE_PATH t = 0) :
    countOccs API_BASE_PATH (API_BASE_PATH ++ t) = 1 := by
  have hcons : API_BASE_PATH ++ t = '/' :: (API_BASE_PATH.drop 1 ++ t) := rfl
  have hg : countOccs API_BASE_PATH ('/' :: (API_BASE_PATH.drop 1 ++ t)) =
      (if API_BASE_PATH <+: '/' :: (API_BASE_PATH.drop 1 ++ t) then 1 else 0) +
        countOccs API_BASE_PATH (API_BASE_PATH.drop 1 ++ t) := rfl
  have hself : API_BASE_PATH <+: '/' :: (API_BASE_PATH.drop 1 ++ t) := by
    rw [← hcons]
    exact List.prefix_append _ _
  have hrest : countOccs API_BASE_PATH (API_BASE_PATH.drop 1 ++ t) = 0 :=
    countOccs_proper_tail (API_BASE_PATH.drop 1) t (List.drop_suffix 1 _)
      (by decide) ht
  rw [hcons, hg, if_pos hself, hrest]

/-- `API_BASE_PATH` holds exactly one occurrence of itself. -/
theorem countOccs_self : countOccs API_BASE_PATH API_BASE_PATH = 1 := by
  have h := countOccs_self_append [] rfl
  rwa [List.append_nil] at h

/-- `_build_url` yields exactly one occurrence of the API prefix for any
base holding it once as its suffix or not at all, and any path holding
none. -/
theorem countOccs_buildUrl (base path : List Char)
    (hpath : countOccs API_BASE_PATH path = 0)
    (hbase : countOccs API_BASE_PATH base =
      if API_BASE_PATH <:+ base then 1 else 0) :
    countOccs API_BASE_PATH (buildUrl base path) = 1 := by
  by_cases hs : API_BASE_PATH <:+ base
  · have hc1 : countOccs API_BASE_PATH base = 1 := by rw [hbase, if_pos hs]
    obtain ⟨b0, hb0⟩ := hs
    have hge : countOccs API_BASE_PATH b0 +
        countOccs API_BASE_PATH API_BASE_PATH ≤
        countOccs API_BASE_PATH base := by
      rw [← hb0]
      exact countOccs_append_ge _ _ _
    rw [countOccs_self] at hge
    have hb0z : countOccs API_BASE_PATH b0 = 0 := by omega
    have hurl : buildUrl base path = b0 ++ (API_BASE_PATH ++ path) := by
      simp only [buildUrl]
      rw [if_pos ⟨b0, hb0⟩, ← hb0, List.append_assoc]
    rw [hurl, countOccs_cancel_left path b0 hb0z, countOccs_self_append path hpath]
  · have hbz : countOccs API_BASE_PATH base = 0 := by rw [hbase, if_neg hs]
    have hurl : buildUrl base path = base ++ (API_BASE_PATH ++ path) := by
      simp only [buildUrl]
      rw [if_neg hs, List.append_assoc]
    rw [hurl, countOccs_cancel_left path base hbz, countOccs_self_append path hpath]

/-- C7: for every logical path free of the API version prefix, the URL
built by `_build_url` on the stored base URL (the configured base with
trailing slashes stripped, per `__init__`) contains `API_BASE_PATH`
exactly once — whether the configured base URL already ends with the
prefix (and contains it just that once) or does not contain it at all. -/
theorem buildUrl_apiPath_once (configured path : List Char)
    (hpath : countOccs API_BASE_PATH path = 0)
    (hbase : countOccs API_BASE_PATH (rstripSlash configured) =
      if API_BASE_PATH <:+ rstripSlash configured then 1 else 0) :
    countOccs API_BASE_PATH (buildUrl (rstripSlash configured) path) = 1 :=
  countOccs_buildUrl (rstripSlash configured) path hpath hbase

/-- C7 (witness): the default configured base
`https://demo-api.kalshi.co/trade-api/v2` (which already ends with the
prefix) and the bare host `https://demo-api.kalshi.co` (which does not)
both produce a URL for `/markets` containing the prefix exactly once. -/
theorem buildUrl_apiPath_once_witness :
    countOccs API_BASE_PATH
        (buildUrl (rstripSlash "https://demo-api.kalshi.co/trade-api/v2".toList)
          "/markets".toList) = 1 ∧
    countOccs API_BASE_PATH
        (buildUrl (rstripSlash "https://demo-api.kalshi.co".toList)
          "/markets".toList) = 1 :=
  ⟨buildUrl_apiPath_once "https://demo-api.kalshi.co/trade-api/v2".toList
      "/markets".toList (by decide) (by decide),
   buildUrl_apiPath_once "https://demo-api.kalshi.co".toList
      "/markets".toList (by decide) (by decide)⟩

end Kalshibot
